import Mathlib

/-!
Shallow embedding of the wind-grid assembly core of pyPython
(`src/pysi/wind/model/base.py` and `src/pypython/wind/__init__.py`),
together with proofs settling the frozen claims about it.

Numeric table values are modelled as rationals (`ℚ`); the real-valued
banded radiation models (which use logarithms and powers) are modelled
over `ℝ`.  Python exceptions are modelled with `Except PyErr`.
-/

/-- The kinds of Python exceptions the embedded code can raise. -/
inductive PyErr where
  | indexError
  | formatError
  | valueError
  | keyError
  | osError
  | notImplementedError
deriving DecidableEq, Repr

deriving instance DecidableEq for Except

/- ### String utilities mirroring the Python string operations used -/

/-- Python `line.startswith("#")`. -/
def startsWithHash (s : String) : Bool :=
  match s.data with
  | c :: _ => c == '#'
  | [] => false

/-- Split a list of characters into maximal runs of non-whitespace
characters, as Python `str.split()` (no argument) does; the first
argument accumulates the current (reversed) token. -/
def splitTokens (cur : List Char) : List Char → List (List Char)
  | [] => if cur.isEmpty then [] else [cur.reverse]
  | c :: rest =>
    if c.isWhitespace then
      if cur.isEmpty then splitTokens [] rest
      else cur.reverse :: splitTokens [] rest
    else splitTokens (c :: cur) rest

/-- Python `line.strip().split()`. -/
def lineTokens (s : String) : List String :=
  (splitTokens [] s.data).map (fun cs => String.mk cs)

/-- Python list comprehension
`[line.strip().split() for line in lines if not line.startswith("#")]`. -/
def processLines (lines : List String) : List (List String) :=
  (lines.filter (fun l => !startsWithHash l)).map lineTokens

/-- Python `str.isdigit()` on ASCII strings: non-empty and every
character a digit. -/
def pyIsDigit (s : String) : Bool :=
  !s.data.isEmpty && s.data.all Char.isDigit

/-- Numeric value of a run of decimal digit characters. -/
def digitsToNat (cs : List Char) : ℕ :=
  cs.foldl (fun a c => 10 * a + (c.toNat - 48)) 0

/-- Parse a non-empty all-digit character run. -/
def parseDigits (cs : List Char) : Option ℕ :=
  if !cs.isEmpty && cs.all Char.isDigit then some (digitsToNat cs) else none

/-- Split a character list at the first character satisfying `p`,
returning the characters before it and, when found, those after it. -/
def splitFirst (p : Char → Bool) : List Char → List Char × Option (List Char)
  | [] => ([], none)
  | c :: r =>
    if p c then ([], some r)
    else
      let (a, b) := splitFirst p r
      (c :: a, b)

/-- Mantissa of a decimal float token: digits with an optional decimal
point (`"12"`, `"1.5"`, `"1."`, `".5"`). -/
def parseMantissa (cs : List Char) : Option ℚ :=
  match splitFirst (fun c => c == '.') cs with
  | (ip, none) => (parseDigits ip).map (fun n => (n : ℚ))
  | (ip, some fp) =>
    if (!ip.isEmpty || !fp.isEmpty) && ip.all Char.isDigit && fp.all Char.isDigit then
      some ((digitsToNat ip : ℚ) + (digitsToNat fp : ℚ) / 10 ^ fp.length)
    else none

/-- Strip an optional leading sign, returning the sign as `1` or `-1`. -/
def stripSign : List Char → ℚ × List Char
  | '+' :: r => (1, r)
  | '-' :: r => (-1, r)
  | r => (1, r)

/-- Model of `numpy.float64` parsing of a token (as used by
`numpy.array(..., dtype=numpy.float64)`): an optional sign, a decimal
mantissa and an optional exponent part.  Exact decimal values are kept
as rationals; `inf`/`nan` tokens are not modelled. -/
def parseFloat (s : String) : Option ℚ :=
  let (sgn, cs) := stripSign s.data
  match splitFirst (fun c => c == 'e' || c == 'E') cs with
  | (mant, none) => (parseMantissa mant).map (fun m => sgn * m)
  | (mant, some exps) =>
    let (esgn, ed) := stripSign exps
    match parseMantissa mant, parseDigits ed with
    | some m, some e =>
      some (sgn * m * (10 : ℚ) ^ (esgn.num * (e : ℤ)))
    | _, _ => none

/-- `numpy.array(rows, dtype=float64)` requires the rows to be
rectangular (same length), otherwise it raises. -/
def rectangular (rows : List (List ℚ)) : Bool :=
  match rows with
  | [] => true
  | r :: rs => rs.all (fun x => x.length == r.length)

/-- The body of `WindBase.read_in_wind_table` after the comment filter
and whitespace split: the first surviving line must exist, its first
token must not be all digits (`file_lines[0][0].isdigit()`), and the
remaining lines are parsed by `numpy.array(..., dtype=numpy.float64)`
into a rectangular float matrix. -/
def readTableLines (fl : List (List String)) :
    Except PyErr (List String × List (List ℚ)) :=
  match fl with
  | [] => .error .indexError
  | firstLine :: rest =>
    match firstLine with
    | [] => .error .indexError
    | tok :: _ =>
      if pyIsDigit tok then .error .formatError
      else
        match rest.mapM (fun row => row.mapM parseFloat) with
        | none => .error .valueError
        | some rows =>
          if rectangular rows then .ok (firstLine, rows)
          else .error .valueError

/-- `WindBase.read_in_wind_table`.  The file-system lookup (primary path
with a `tables/` fallback) is collapsed into the `Option` argument:
`none` means the file was found at neither location, in which case the
Python code returns an empty header (and no data) rather than raising.
A present file is its list of raw text lines. -/
def read_in_wind_table (file : Option (List String)) :
    Except PyErr (List String × List (List ℚ)) :=
  match file with
  | none => .ok ([], [])
  | some lines => readTableLines (processLines lines)

/- ### C1: the element-number / (i, j) index bijection -/

/-- `WindBase.get_elem_number_from_ij`: `int(self.n_z * i + j)`. -/
def get_elem_number_from_ij (n_z i j : ℕ) : ℕ :=
  n_z * i + j

/-- `WindBase.get_ij_from_elem_number`: `i = int(elem / n_z)` and
`j = int(elem - i * n_z)`.  For the non-negative machine integers
involved, Python's `int(elem / n_z)` is floor division. -/
def get_ij_from_elem_number (n_z elem : ℕ) : ℕ × ℕ :=
  let i := elem / n_z
  (i, elem - i * n_z)

/- ### The parameter namespace and `read_in_wind_parameters` -/

/-- Lookup in the parameter namespace, modelled as an association list
(mirroring the Python `dict self.parameters`; keys are unique). -/
def plookup {α : Type} : List (String × α) → String → Option α
  | [], _ => none
  | (k, v) :: rest, c => if k = c then some v else plookup rest c

/-- Column `i` of the parsed table matrix, `table_parameters[:, i]`.
Each row is rectangular by construction of `read_in_wind_table`;
`numpy` would raise for an out-of-range column index, which the claims
below never exercise, so the (unreachable) default is `0`. -/
def getCol (rows : List (List ℚ)) (i : ℕ) : List ℚ :=
  rows.map (fun r => r.getD i 0)

/-- Index of the first occurrence of column `c` in a header. -/
def colIdx (c : String) : List String → ℕ
  | [] => 0
  | d :: rest => if d = c then 0 else colIdx c rest + 1

/-- The inner loop of `WindBase.read_in_wind_parameters`:
`for i, column in enumerate(table_header): if column not in
self.parameters: self.parameters[column] = table_parameters[:, i]`.
The counter `i` tracks the enumeration index. -/
def bindColumnsAux (rows : List (List ℚ)) :
    List (String × List ℚ) → ℕ → List String → List (String × List ℚ)
  | acc, _, [] => acc
  | acc, i, c :: rest =>
    bindColumnsAux rows
      (if (plookup acc c).isSome then acc else acc ++ [(c, getCol rows i)])
      (i + 1) rest

/-- Bind all columns of one table into the namespace, never overwriting
an existing binding. -/
def bindColumns (ps : List (String × List ℚ)) (header : List String)
    (rows : List (List ℚ)) : List (String × List ℚ) :=
  bindColumnsAux rows ps 0 header

/-- The merging loop of `WindBase.read_in_wind_parameters` over the
tables read for the kinds `master, heat, gradient, converge`, in that
order; a table whose header is empty (file not found) is skipped. -/
def mergeAllTables (ts : List (List String × List (List ℚ))) :
    List (String × List ℚ) :=
  ts.foldl (fun acc t => if t.1.isEmpty then acc else bindColumns acc t.1 t.2) []

/-- `pysi.wind.enum.CoordSystem`. -/
inductive CoordSystem where
  | CYLINDRICAL
  | POLAR
  | SPHERICAL
  | UNKNOWN
deriving DecidableEq, Repr

/-- `numpy.max` of a column; raises on an empty array. -/
def npMax : List ℚ → Option ℚ
  | [] => none
  | x :: xs => some (xs.foldl max x)

/-- Python `int()` applied to a float value: truncation toward zero. -/
def pyInt (q : ℚ) : ℤ :=
  if 0 ≤ q then ⌊q⌋ else ⌈q⌉

/-- Split a flat list into consecutive chunks of length `n` (row-major
reshape); the first argument is fuel bounding the recursion depth. -/
def chunkAux (n : ℕ) : ℕ → List ℚ → List (List ℚ)
  | 0, _ => []
  | _, [] => []
  | fuel + 1, x :: xs => (x :: xs).take n :: chunkAux n fuel ((x :: xs).drop n)

/-- `numpy.ndarray.reshape(n_x, n_z)` of a flat column: succeeds exactly
when the column length is `n_x * n_z` (with non-negative dimensions),
producing the row-major `(n_x, n_z)` matrix; otherwise `numpy` raises. -/
def npReshape (v : List ℚ) (nx nz : ℤ) : Option (List (List ℚ)) :=
  if 0 ≤ nx ∧ 0 ≤ nz ∧ v.length = nx.toNat * nz.toNat then
    some (chunkAux nz.toNat v.length v)
  else none

/-- The grid state assembled by `WindBase.read_in_wind_parameters`:
dimensions, coordinate type and the reshaped parameter namespace. -/
structure GridInfo where
  n_x : ℤ
  n_z : ℤ
  n_cells : ℤ
  coord_type : CoordSystem
  parameters : List (String × List (List ℚ))
deriving DecidableEq, Repr

/-- The tail of `WindBase.read_in_wind_parameters` after merging: derive
`n_x = int(max(parameters["i"]) + 1)`; `n_z = int(max(parameters["j"]) + 1)`
when a `z` or `theta` column was read, else 1; `n_cells = int(n_x * n_z)`;
classify the coordinate system from the presence of `r` and `theta`;
finally reshape every bound column to `(n_x, n_z)`. -/
def computeGrid (merged : List (String × List ℚ)) : Except PyErr GridInfo :=
  match plookup merged "i" with
  | none => .error .keyError
  | some colI =>
    match npMax colI with
    | none => .error .valueError
    | some maxI =>
      let n_x : ℤ := pyInt (maxI + 1)
      let nzE : Except PyErr ℤ :=
        if (plookup merged "z").isSome || (plookup merged "theta").isSome then
          match plookup merged "j" with
          | none => .error .keyError
          | some colJ =>
            match npMax colJ with
            | none => .error .valueError
            | some maxJ => .ok (pyInt (maxJ + 1))
        else .ok (1 : ℤ)
      nzE.bind (fun n_z =>
        let n_cells := n_x * n_z
        let coord :=
          if (plookup merged "r").isSome && (plookup merged "theta").isSome then
            CoordSystem.POLAR
          else if (plookup merged "r").isSome then CoordSystem.SPHERICAL
          else CoordSystem.CYLINDRICAL
        match merged.mapM
            (fun cv => (npReshape cv.2 n_x n_z).map (fun grid => (cv.1, grid))) with
        | none => .error .valueError
        | some ps => .ok ⟨n_x, n_z, n_cells, coord, ps⟩)

/-- The merged (still flat) parameter namespace produced by the reading
loop of `WindBase.read_in_wind_parameters` over the four bulk-parameter
tables.  The file system is the function `fs` from table kind to file
contents. -/
def mergedParameters (fs : String → Option (List String)) :
    Except PyErr (List (String × List ℚ)) := do
  let t1 ← read_in_wind_table (fs "master")
  let t2 ← read_in_wind_table (fs "heat")
  let t3 ← read_in_wind_table (fs "gradient")
  let t4 ← read_in_wind_table (fs "converge")
  pure (mergeAllTables [t1, t2, t3, t4])

/-- `WindBase.read_in_wind_parameters`: read the four bulk-parameter
tables, count the successfully read ones (`n_read`), fail with an
`OSError` when none was read, then derive the grid geometry. -/
def read_in_wind_parameters (fs : String → Option (List String)) :
    Except PyErr GridInfo := do
  let t1 ← read_in_wind_table (fs "master")
  let t2 ← read_in_wind_table (fs "heat")
  let t3 ← read_in_wind_table (fs "gradient")
  let t4 ← read_in_wind_table (fs "converge")
  let ts := [t1, t2, t3, t4]
  let nRead := (ts.filter (fun t => !t.1.isEmpty)).length
  if nRead = 0 then .error .osError
  else computeGrid (mergeAllTables ts)

/-- A synthetic `master` table with header `i j r theta` and rows
covering `i ∈ {0, 1}`, `j ∈ {0, 1}`. -/
def exampleMasterLines : List String :=
  ["i j r theta",
   "0 0 1.0 2.0",
   "0 1 1.0 3.0",
   "1 0 4.0 2.0",
   "1 1 4.0 3.0"]

/-- A file system holding only the synthetic `master` table. -/
def exampleFs : String → Option (List String) :=
  fun s => if s = "master" then some exampleMasterLines else none

/-- The merged flat namespace read from `exampleFs`. -/
def exampleMerged : List (String × List ℚ) :=
  [("i", [0, 0, 1, 1]), ("j", [0, 1, 0, 1]),
   ("r", [1, 1, 4, 4]), ("theta", [2, 3, 2, 3])]

/-- The grid assembled from `exampleFs`: 2 × 2 cells, polar. -/
def exampleGrid : GridInfo :=
  ⟨2, 2, 4, .POLAR,
   [("i", [[0, 0], [1, 1]]), ("j", [[0, 1], [0, 1]]),
    ("r", [[1, 1], [4, 4]]), ("theta", [[2, 3], [2, 3]])]⟩

/- ### `read_in_wind_ions` -/

/-- `re.match("i[0-9]+", column)`: the column starts with `i` followed
by at least one digit (a prefix match). -/
def isIonColumn (s : String) : Bool :=
  match s.data with
  | 'i' :: c :: _ => c.isDigit
  | _ => false

/-- Python `dict` assignment `ps[k] = v`: overwrite an existing binding
or append a new one. -/
def passign {α : Type} (ps : List (String × α)) (k : String) (v : α) :
    List (String × α) :=
  if (plookup ps k).isSome then
    ps.map (fun kv => if kv.1 = k then (k, v) else kv)
  else ps ++ [(k, v)]

/-- The column loop of `WindBase.read_in_wind_ions`: bind every
ion-stage column (pattern `i<digits>`, raw name not already bound) under
the composite name `element_column_iontype`, reshaped to `(n_x, n_z)`,
and record it in `ions_read_in`. -/
def bindIonsAux (n_x n_z : ℤ) (element ion_type : String)
    (rows : List (List ℚ)) :
    List (String × List (List ℚ)) × List String → ℕ → List String →
    Except PyErr (List (String × List (List ℚ)) × List String)
  | st, _, [] => .ok st
  | (ps, ions), i, c :: rest =>
    if isIonColumn c && !(plookup ps c).isSome then
      match npReshape (getCol rows i) n_x n_z with
      | none => .error .valueError
      | some grid =>
        bindIonsAux n_x n_z element ion_type rows
          (passign ps (element ++ "_" ++ c ++ "_" ++ ion_type) grid,
           ions ++ [element ++ "_" ++ c ++ "_" ++ ion_type]) (i + 1) rest
    else bindIonsAux n_x n_z element ion_type rows (ps, ions) (i + 1) rest

/-- One iteration of the `read_in_wind_ions` double loop for the pair
`(element, ion_type)`: read the `element.ion_type` table, skip it when
absent (empty header), otherwise bind its ion columns and count the
table as read. -/
def ionStep (n_x n_z : ℤ) (fs : String → Option (List String))
    (st : List (String × List (List ℚ)) × List String × ℕ)
    (et : String × String) :
    Except PyErr (List (String × List (List ℚ)) × List String × ℕ) :=
  match read_in_wind_table (fs (et.1 ++ "." ++ et.2)) with
  | .error e => .error e
  | .ok (header, rows) =>
    if header.isEmpty then .ok st
    else
      match bindIonsAux n_x n_z et.1 et.2 rows (st.1, st.2.1) 0 header with
      | .error e => .error e
      | .ok (ps, ions) => .ok (ps, ions, st.2.2 + 1)

/-- `WindBase.read_in_wind_ions`: loop over
`ion_type ∈ ["frac", "den"]` and the given element list (in that order),
reading `element.ion_type` tables; raise an `OSError` when not a single
ion table could be read. -/
def read_in_wind_ions (n_x n_z : ℤ) (fs : String → Option (List String))
    (elements_to_read : List String)
    (params : List (String × List (List ℚ))) :
    Except PyErr (List (String × List (List ℚ)) × List String) :=
  match (elements_to_read.map (fun e => (e, "frac")) ++
      elements_to_read.map (fun e => (e, "den"))).foldlM
      (ionStep n_x n_z fs) (params, [], 0) with
  | .error e => .error e
  | .ok (ps, ions, nRead) =>
    if nRead = 0 then .error .osError else .ok (ps, ions)

/- ### `read_in_wind_cell_spectra` -/

/-- A cell-spectrum array: `numpy` allocates shape `(n_x, n_freq)` for a
1-D grid and `(n_x, n_z, n_freq)` otherwise. -/
inductive SpecArr where
  | two : List (List ℚ) → SpecArr
  | three : List (List (List ℚ)) → SpecArr
deriving DecidableEq, Repr

/-- The `spec_freq` / `spec_flux` entries of the parameter namespace;
`none` covers both an unbound key and the Python `None` marker used
when no cell-spectrum file exists. -/
structure SpecState where
  spec_freq : Option SpecArr
  spec_flux : Option SpecArr
deriving DecidableEq, Repr

/-- Column `k` of the file matrix, `file_array[:, k]`; `none` models the
`IndexError` raised when the column does not exist. -/
def colAt (rows : List (List ℚ)) (k : ℕ) : Option (List ℚ) :=
  rows.mapM (fun r => r.get? k)

/-- Python `"a_b_c".split("_")` on a character list. -/
def splitOnUnderscore : List Char → List (List Char)
  | [] => [[]]
  | c :: r =>
    if c = '_' then [] :: splitOnUnderscore r
    else
      match splitOnUnderscore r with
      | [] => [[c]]
      | p :: ps => (c :: p) :: ps

/-- `numpy.array(coord_string[1:].split("_"), dtype=numpy.int32)`: drop
the first character of the column label, split on `_`, and parse every
piece as a (non-negative) integer.  Cell labels carry plain digit runs;
a piece that is not one makes `numpy` raise. -/
def labelCoords (label : String) : Option (List ℕ) :=
  (splitOnUnderscore (label.data.drop 1)).mapM parseDigits

/-- The first two decoded coordinates of a column label (the code reads
`coords[0]` and `coords[1]`; further entries are ignored). -/
def coordPair (label : String) : Option (ℕ × ℕ) :=
  match labelCoords label with
  | some (a :: b :: _) => some (a, b)
  | _ => none

/-- `arr[a, b, :] = v` on a 3-D array with bounds and shape checks
(`numpy` raises on an out-of-range index or a length mismatch). -/
def specSet3 (arr : List (List (List ℚ))) (a b : ℕ) (v : List ℚ) :
    Option (List (List (List ℚ))) :=
  match arr.get? a with
  | none => none
  | some row =>
    match row.get? b with
    | none => none
    | some cell =>
      if v.length = cell.length then some (arr.set a (row.set b v)) else none

/-- `arr[a, :] = v` on a 2-D array with bounds and shape checks. -/
def specSet2 (arr : List (List ℚ)) (a : ℕ) (v : List ℚ) :
    Option (List (List ℚ)) :=
  match arr.get? a with
  | none => none
  | some cell =>
    if v.length = cell.length then some (arr.set a v) else none

/-- The scatter loop of `WindBase.read_in_wind_cell_spectra` in the
`n_z > 1` branch: for each header label (enumeration index `i`), decode
the cell coordinates and assign column `i+1` of the file into
`spec_flux[coords[0], coords[1], :]` and column `0` into `spec_freq` at
the same cell. -/
def scatterSpec3 (rows : List (List ℚ)) :
    List (List (List ℚ)) × List (List (List ℚ)) → ℕ → List String →
    Except PyErr (List (List (List ℚ)) × List (List (List ℚ)))
  | st, _, [] => .ok st
  | (freqT, fluxT), i, label :: rest =>
    match labelCoords label with
    | none => .error .valueError
    | some coords =>
      match colAt rows (i + 1), colAt rows 0 with
      | some colI, some col0 =>
        match coords.get? 0, coords.get? 1 with
        | some a, some b =>
          match specSet3 fluxT a b colI, specSet3 freqT a b col0 with
          | some fluxT2, some freqT2 =>
            scatterSpec3 rows (freqT2, fluxT2) (i + 1) rest
          | _, _ => .error .indexError
        | _, _ => .error .indexError
      | _, _ => .error .valueError

/-- The scatter loop in the `n_z = 1` branch: assignments go to
`spec_flux[coords[0], :]` and `spec_freq[coords[0], :]`. -/
def scatterSpec2 (rows : List (List ℚ)) :
    List (List ℚ) × List (List ℚ) → ℕ → List String →
    Except PyErr (List (List ℚ) × List (List ℚ))
  | st, _, [] => .ok st
  | (freqT, fluxT), i, label :: rest =>
    match labelCoords label with
    | none => .error .valueError
    | some coords =>
      match colAt rows (i + 1), colAt rows 0 with
      | some colI, some col0 =>
        match coords.get? 0 with
        | some a =>
          match specSet2 fluxT a colI, specSet2 freqT a col0 with
          | some fluxT2, some freqT2 =>
            scatterSpec2 rows (freqT2, fluxT2) (i + 1) rest
          | _, _ => .error .indexError
        | none => .error .indexError
      | _, _ => .error .valueError

/-- The allocation-and-scatter phase of reading one cell-spectrum file,
given the parsed (rectangular) float matrix: `file_array[:, 0]` must
exist (non-empty rows of non-zero width), the zero-filled
`spec_freq`/`spec_flux` arrays are allocated on first use (sized from
this file's row count), and every header column is scattered.  The
`n_z > 1` test is loop-invariant, so the two branches of the Python
loop body are the two scatter functions above; a previously allocated
array always has the shape matching the branch, so the cross-shape
cases are `IndexError`s. -/
def specScatterPhase (n_x n_z : ℤ) (st : SpecState)
    (fileHeader : List String) :
    List (List ℚ) → Except PyErr SpecState
  | [] => .error .indexError
  | r0 :: rrest =>
    if r0.isEmpty then .error .indexError
    else
      if 1 < n_z then
        let freqT := match st.spec_freq with
          | some (.three t) => some t
          | some (.two _) => none
          | none => some (List.replicate n_x.toNat
              (List.replicate n_z.toNat
                (List.replicate (r0 :: rrest).length 0)))
        let fluxT := match st.spec_flux with
          | some (.three t) => some t
          | some (.two _) => none
          | none => some (List.replicate n_x.toNat
              (List.replicate n_z.toNat
                (List.replicate (r0 :: rrest).length 0)))
        match freqT, fluxT with
        | some fT, some xT =>
          match scatterSpec3 (r0 :: rrest) (fT, xT) 0 fileHeader with
          | .error e => .error e
          | .ok (fT2, xT2) =>
            .ok ⟨some (.three fT2), some (.three xT2)⟩
        | _, _ => .error .indexError
      else
        let freqT := match st.spec_freq with
          | some (.two t) => some t
          | some (.three _) => none
          | none => some (List.replicate n_x.toNat
              (List.replicate (r0 :: rrest).length 0))
        let fluxT := match st.spec_flux with
          | some (.two t) => some t
          | some (.three _) => none
          | none => some (List.replicate n_x.toNat
              (List.replicate (r0 :: rrest).length 0))
        match freqT, fluxT with
        | some fT, some xT =>
          match scatterSpec2 (r0 :: rrest) (fT, xT) 0 fileHeader with
          | .error e => .error e
          | .ok (fT2, xT2) =>
            .ok ⟨some (.two fT2), some (.two xT2)⟩
        | _, _ => .error .indexError

/-- Reading one cell-spectrum file: comment filter and whitespace split,
the digit-header check, float parsing of the body into a rectangular
matrix, then the allocation-and-scatter phase. -/
def readSpecFile (n_x n_z : ℤ) (st : SpecState) (lines : List String) :
    Except PyErr SpecState :=
  match processLines lines with
  | [] => .error .indexError
  | firstLine :: rest =>
    match firstLine with
    | [] => .error .indexError
    | tok :: fileHeader =>
      if pyIsDigit tok then .error .formatError
      else
        match rest.mapM (fun row => row.mapM parseFloat) with
        | none => .error .valueError
        | some rows =>
          if !rectangular rows then .error .valueError
          else specScatterPhase n_x n_z st fileHeader rows

/-- `WindBase.read_in_wind_cell_spectra`: when the discovery pattern
matches no file, both arrays are bound to the Python `None` marker (no
error); otherwise every discovered file is read and scattered in turn. -/
def read_in_wind_cell_spectra (n_x n_z : ℤ) (files : List (List String)) :
    Except PyErr SpecState :=
  if files.isEmpty then .ok ⟨none, none⟩
  else files.foldlM (fun st f => readSpecFile n_x n_z st f) ⟨none, none⟩

/- ### `_set_axes_coords` -/

/-- Insert into a sorted list of rationals. -/
def insertSortedQ (x : ℚ) : List ℚ → List ℚ
  | [] => [x]
  | y :: ys => if x ≤ y then x :: y :: ys else y :: insertSortedQ x ys

/-- Insertion sort on rationals. -/
def sortQ : List ℚ → List ℚ
  | [] => []
  | x :: xs => insertSortedQ x (sortQ xs)

/-- `numpy.unique`: the sorted distinct values of a flat array. -/
def npUnique (l : List ℚ) : List ℚ :=
  sortQ l.dedup

/-- `WindBase._set_axes_coords`.  The Python conditional
`numpy.unique(self.parameters["x"]) if enum.CoordSystem.CYLINDRICAL else
numpy.unique(self.parameters["r"])` tests the enum *member* itself — a
truthy object — not `self.coord_type`, so the `x` branch is always
taken regardless of the grid's coordinate system.  The `z` branch below
it compares `self.coord_type == enum.CoordSystem.CYLINDRICAL` as
intended. -/
def set_axes_coords (n_z : ℤ) (coord_type : CoordSystem)
    (p : String → Option (List ℚ)) : Except PyErr (List ℚ × List ℚ) :=
  match p "x" with
  | none => .error .keyError
  | some xs =>
    let x_coords := npUnique xs
    if 1 < n_z then
      match (if coord_type = CoordSystem.CYLINDRICAL then p "z"
             else p "theta") with
      | none => .error .keyError
      | some zs => .ok (x_coords, npUnique zs)
    else .ok (x_coords, List.replicate x_coords.length 0)

/- ### `pypython.wind.Wind`: smoothing and the constructor -/

/-- The cell-spectrum slice of the user-facing `Wind` object's state:
the working `parameters["spec"]` array of per-cell flux lists, and the
retained snapshot `__original_parameters["spec"]`. -/
structure WindSpecState where
  spec : ℕ → ℕ → List ℚ
  original_spec : ℕ → ℕ → List ℚ

/-- Modelled from the spec: the snapshot `__original_parameters` is
captured at load time (the capturing code is not under `src/`); per the
spec's snapshot-for-undo pattern the working copy and the retained
original start out identical. -/
def mkWindSpecState (s : ℕ → ℕ → List ℚ) : WindSpecState :=
  ⟨s, s⟩

/-- `Wind.smooth_cell_spectra`: `for i in range(n_x): for j in
range(n_z): parameters["spec"][i, j] = smooth_array(parameters["spec"][i, j],
amount)`.  The boxcar filter `pypython.utilities.smooth_array` is not
under `src/`, so it is taken as an arbitrary function argument; the
claims proved below hold for every choice of it. -/
def smooth_cell_spectra (smooth_array : List ℚ → ℕ → List ℚ)
    (n_x n_z : ℕ) (amount : ℕ) (w : WindSpecState) : WindSpecState :=
  { w with spec := fun i j =>
      if i < n_x ∧ j < n_z then smooth_array (w.spec i j) amount
      else w.spec i j }

/-- `Wind.unsmooth_cell_spectra`:
`self.parameters["spec"] = copy.deepcopy(self.__original_parameters["spec"])`. -/
def unsmooth_cell_spectra (w : WindSpecState) : WindSpecState :=
  { w with spec := w.original_spec }

/-- `Wind.__calculate_grav_radius`: its body unconditionally raises
`NotImplementedError` (all further statements are commented out). -/
def calculate_grav_radius : Except PyErr ℚ :=
  .error .notImplementedError

/-- `Wind.__init__`: run the base-class assembly
(`super().__init__(root, directory)`), then
`self.grav_radius = self.__calculate_grav_radius()`. -/
def wind_init {β : Type} (base_init : Except PyErr β) :
    Except PyErr (β × ℚ) :=
  base_init.bind (fun b => calculate_grav_radius.map (fun g => (b, g)))

/-- The `spec_freq` array after scattering the example cell-spectrum
file `["Freq. i3_1", "1.0 5.0", "2.0 6.0"]` into a 4 × 2 grid. -/
def exampleFreqArr : List (List (List ℚ)) :=
  [[[0, 0], [0, 0]], [[0, 0], [0, 0]], [[0, 0], [0, 0]], [[0, 0], [1, 2]]]

/-- The `spec_flux` array after scattering the same example file. -/
def exampleFluxArr : List (List (List ℚ)) :=
  [[[0, 0], [0, 0]], [[0, 0], [0, 0]], [[0, 0], [0, 0]], [[0, 0], [5, 6]]]

/- ### The banded J_nu model reconstruction (`create_banded_jnu_models`
and the per-cell loop of `read_in_wind_jnu_models`), over `ℝ` -/

/-- `astropy.constants.h.cgs.value`: the Planck constant in CGS. -/
noncomputable def h_cgs : ℝ := 6.62607015e-27

/-- `astropy.constants.k_B.cgs.value`: the Boltzmann constant in CGS. -/
noncomputable def kB_cgs : ℝ := 1.380649e-16

/-- `numpy.logspace(a, b, n)`: `n` log-spaced samples
`10 ^ (a + (b - a) * k / (n - 1))` for `k < n`.  (`numpy` special-cases
`n = 1` to `[10 ^ a]`; here division by zero yields `0`, giving the
same value.) -/
noncomputable def logspace (a b : ℝ) (n : ℕ) : List ℝ :=
  (List.range n).map
    (fun (k : ℕ) => (10 : ℝ) ^ (a + (b - a) * (k : ℝ) / ((n : ℝ) - 1)))

/-- The banded model's log-spaced frequency bins for one band. -/
noncomputable def bandBins (fmin fmax : ℝ) (n_bins : ℕ) : List ℝ :=
  logspace (Real.logb 10 fmin) (Real.logb 10 fmax) n_bins

/-- The power-law flux,
`10 ** (pl_log_w + numpy.log10(freq) * pl_alpha)`. -/
noncomputable def powerLawFlux (plw pla f : ℝ) : ℝ :=
  (10 : ℝ) ^ (plw + Real.logb 10 f * pla)

/-- The exponential flux,
`exp_w * numpy.exp(-1 * h * freq / (exp_temp * k_B))`. -/
noncomputable def expFlux (ew et f : ℝ) : ℝ :=
  ew * Real.exp (-1 * h_cgs * f / (et * kB_cgs))

/-- The flux sequence of one retained band: power law when the model
type is `1`, else the exponential form. -/
noncomputable def bandFlux (mty plw pla ew et : ℝ) (bins : List ℝ) :
    List ℝ :=
  if mty = 1 then bins.map (powerLawFlux plw pla)
  else bins.map (expFlux ew et)

/-- The Python dict comprehension
`{col: model_array[cell + band * n_cells, k] for k, col in
enumerate(table_header)}`, read back by key: when a column name is
duplicated the *last* occurrence wins, hence the reversed lookup. -/
noncomputable def rowVal (header : List String) (row : List ℝ)
    (col : String) : Option ℝ :=
  ((header.zip row).reverse).lookup col

/-- `WindBase.create_banded_jnu_models`.  `none` models the exceptions
(`IndexError` when the row or a dict entry for the mandatory keys is
missing, `KeyError` on absent coefficients); a missing
`spec_mod_type`/`spec_mod_` discriminant *returns* `[], []`, resetting
the accumulated lists (the Python early `return [], []` after the
warning).  An empty band (`fmax ≤ fmin`) leaves the lists untouched. -/
noncomputable def create_banded_jnu_models
    (n_cells cell_index band_index : ℕ) (model_array : List (List ℝ))
    (table_header : List String) (n_freq_bins_per_band : ℕ)
    (cell_frequency cell_flux : List (List ℝ)) :
    Option (List (List ℝ) × List (List ℝ)) :=
  match model_array.get? (cell_index + band_index * n_cells) with
  | none => none
  | some row =>
    if table_header.length > row.length then none
    else
      match rowVal table_header row "fmin", rowVal table_header row "fmax" with
      | some band_freq_min, some band_freq_max =>
        if band_freq_min < band_freq_max then
          match (rowVal table_header row "spec_mod_type").orElse
              (fun _ => rowVal table_header row "spec_mod_") with
          | none => some ([], [])
          | some model_type =>
            if model_type = 1 then
              match rowVal table_header row "pl_log_w",
                  rowVal table_header row "pl_alpha" with
              | some plw, some pla =>
                some (cell_frequency ++
                    [bandBins band_freq_min band_freq_max n_freq_bins_per_band],
                  cell_flux ++
                    [(bandBins band_freq_min band_freq_max
                      n_freq_bins_per_band).map (powerLawFlux plw pla)])
              | _, _ => none
            else
              match rowVal table_header row "exp_w",
                  rowVal table_header row "exp_temp" with
              | some ew, some et =>
                some (cell_frequency ++
                    [bandBins band_freq_min band_freq_max n_freq_bins_per_band],
                  cell_flux ++
                    [(bandBins band_freq_min band_freq_max
                      n_freq_bins_per_band).map (expFlux ew et)])
              | _, _ => none
        else some (cell_frequency, cell_flux)
      | _, _ => none

/-- The per-cell band loop of `WindBase.read_in_wind_jnu_models`:
`for band_index in range(n_bands): cell_frequency, cell_flux =
self.create_banded_jnu_models(...)`. -/
noncomputable def read_cell_jnu_model (n_cells n_bands : ℕ)
    (model_array : List (List ℝ)) (table_header : List String)
    (n_freq_bins_per_band cell_index : ℕ) :
    Option (List (List ℝ) × List (List ℝ)) :=
  (List.range n_bands).foldlM
    (fun st band_index =>
      create_banded_jnu_models n_cells cell_index band_index model_array
        table_header n_freq_bins_per_band st.1 st.2)
    ([], [])

/-- The per-cell model that `read_in_wind_jnu_models` stores: when the
band loop kept nothing (`len(cell_flux) == 0`) no entry is stored
(inner `none`); otherwise the retained bands' frequency and flux
sequences are concatenated by `numpy.hstack`. -/
noncomputable def cell_jnu_model (n_cells n_bands : ℕ)
    (model_array : List (List ℝ)) (table_header : List String)
    (n_freq_bins_per_band cell_index : ℕ) :
    Option (Option (List ℝ × List ℝ)) :=
  (read_cell_jnu_model n_cells n_bands model_array table_header
    n_freq_bins_per_band cell_index).map
    (fun st => if st.2.isEmpty then none else some (st.1.join, st.2.join))

/-- The header of the synthetic one-cell, one-band `spec` table. -/
def jnuHeader : List String :=
  ["fmin", "fmax", "spec_mod_type", "pl_log_w", "pl_alpha",
   "exp_w", "exp_temp"]

/-! ### Theorems settling the claims -/

/-- C1: for every grid with `n_z ≥ 1`, the linear element number and the
`(i, j)` cell index are in bijection: both round-trips of
`get_elem_number_from_ij` and `get_ij_from_elem_number` are the
identity on their valid ranges. -/
theorem elem_ij_roundtrip (n_x n_z : ℕ) (hz : 1 ≤ n_z) :
    (∀ elem, elem < n_x * n_z →
      get_elem_number_from_ij n_z (get_ij_from_elem_number n_z elem).1
        (get_ij_from_elem_number n_z elem).2 = elem) ∧
    (∀ i j, i < n_x → j < n_z →
      get_ij_from_elem_number n_z (get_elem_number_from_ij n_z i j) = (i, j)) := by
  constructor
  · intro elem _
    have hle : elem / n_z * n_z ≤ elem := Nat.div_mul_le_self elem n_z
    simp only [get_elem_number_from_ij, get_ij_from_elem_number]
    rw [Nat.mul_comm]
    exact Nat.add_sub_cancel' hle
  · intro i j _ hj
    have hzpos : 0 < n_z := hz
    have hdiv : (n_z * i + j) / n_z = i := by
      rw [Nat.mul_add_div hzpos, Nat.div_eq_of_lt hj]
      omega
    show ((n_z * i + j) / n_z, n_z * i + j - (n_z * i + j) / n_z * n_z) = (i, j)
    rw [hdiv, Nat.mul_comm i n_z, Nat.add_sub_cancel_left]

/-- Concrete instance of `elem_ij_roundtrip` on a 3 × 2 grid. -/
theorem elem_ij_roundtrip_witness :
    get_elem_number_from_ij 2 (get_ij_from_elem_number 2 5).1
        (get_ij_from_elem_number 2 5).2 = 5 ∧
    get_ij_from_elem_number 2 (get_elem_number_from_ij 2 2 1) = (2, 1) :=
  ⟨(elem_ij_roundtrip 3 2 (by decide)).1 5 (by decide),
   (elem_ij_roundtrip 3 2 (by decide)).2 2 1 (by decide) (by decide)⟩

/-- C5 (counterexample): a file whose first data line begins with the
numeric token `"3.14"` is *not* rejected: Python's `str.isdigit` is
false on `"3.14"`, so the line is accepted as a header and the read
succeeds.  This refutes the claim that every numeric first token
triggers the missing-header format error. -/
theorem read_table_numeric_token_counterexample :
    parseFloat "3.14" = some (157 / 50) ∧
    read_in_wind_table (some ["3.14 2.0", "1.0 2.0"]) =
      .ok (["3.14", "2.0"], [[1, 2]]) := by
  constructor <;> with_unfolding_all decide

/-- C5 (amended): reading fails with the missing-header format error
exactly when the first token of the first non-comment line consists
solely of digit characters (Python `str.isdigit`); a numeric token
containing a decimal point, sign or exponent is accepted as a header
name.  When the first token is not digit-only and every body token
parses as a float into a rectangular matrix, the read succeeds,
returning that line as the header and the parsed float matrix. -/
theorem read_table_header_detection (lines : List String)
    (firstLine : List String) (tok : String) (rest : List (List String))
    (hp : processLines lines = firstLine :: rest)
    (htok : firstLine.head? = some tok) :
    (pyIsDigit tok = true →
      read_in_wind_table (some lines) = .error .formatError) ∧
    (pyIsDigit tok = false → ∀ rows,
      rest.mapM (fun row => row.mapM parseFloat) = some rows →
      rectangular rows = true →
      read_in_wind_table (some lines) = .ok (firstLine, rows)) := by
  obtain ⟨tl, rfl⟩ : ∃ tl, firstLine = tok :: tl := by
    cases firstLine with
    | nil => simp at htok
    | cons a tl =>
      simp only [List.head?] at htok
      exact ⟨tl, by rw [Option.some_inj] at htok; rw [htok]⟩
  have hread : read_in_wind_table (some lines) =
      readTableLines ((tok :: tl) :: rest) := by
    simp [read_in_wind_table, hp]
  constructor
  · intro hd
    rw [hread]
    simp [readTableLines, hd]
  · intro hd rows hrows hrect
    rw [hread]
    simp only [readTableLines, hd, Bool.false_eq_true, if_false]
    rw [hrows]
    simp [hrect]

/-- Concrete instance of `read_table_header_detection`: the file
`["# c", "123 4", "1 2"]` fails with the format error because its first
token `"123"` is all digits, while `["i j", "1.0 2.5"]` succeeds with
header `["i", "j"]` and one parsed row. -/
theorem read_table_header_detection_witness :
    read_in_wind_table (some ["# c", "123 4", "1 2"]) = .error .formatError ∧
    read_in_wind_table (some ["i j", "1.0 2.5"]) =
      .ok (["i", "j"], [[1, 5 / 2]]) :=
  ⟨(read_table_header_detection ["# c", "123 4", "1 2"] ["123", "4"] "123"
      [["1", "2"]] (by with_unfolding_all decide) (by with_unfolding_all decide)).1 (by with_unfolding_all decide),
   (read_table_header_detection ["i j", "1.0 2.5"] ["i", "j"] "i"
      [["1.0", "2.5"]] (by with_unfolding_all decide)
      (by with_unfolding_all decide)).2 (by with_unfolding_all decide) [[1, 5 / 2]]
      (by with_unfolding_all decide) (by with_unfolding_all decide)⟩

/-- Appending a fresh binding does not disturb existing bindings, and is
found only when the key was previously absent. -/
theorem plookup_append_single (acc : List (String × List ℚ)) (d c : String)
    (v : List ℚ) :
    plookup (acc ++ [(d, v)]) c =
      if (plookup acc c).isSome then plookup acc c
      else if d = c then some v else none := by
  induction acc with
  | nil => simp [plookup]
  | cons kv rest ih =>
    obtain ⟨k, w⟩ := kv
    by_cases hk : k = c
    · simp [plookup, hk]
    · simp only [List.cons_append, plookup, if_neg hk]
      exact ih

/-- Characterization of the inner column-binding loop: a column already
bound keeps its value; an unbound column appearing in the header is
bound to the table column at its first occurrence index. -/
theorem plookup_bindColumnsAux (rows : List (List ℚ)) (h : List String) :
    ∀ (acc : List (String × List ℚ)) (i : ℕ) (c : String),
    plookup (bindColumnsAux rows acc i h) c =
      if (plookup acc c).isSome then plookup acc c
      else if c ∈ h then some (getCol rows (i + colIdx c h)) else none := by
  induction h with
  | nil =>
    intro acc i c
    cases hs : plookup acc c <;> simp [bindColumnsAux, hs]
  | cons d rest ih =>
    intro acc i c
    simp only [bindColumnsAux]
    rw [ih]
    by_cases hdc : d = c
    · subst hdc
      cases hs : plookup acc d with
      | some v =>
        have hs' : (plookup acc d).isSome := by simp [hs]
        simp [hs', hs]
      | none =>
        have hs' : ¬(plookup acc d).isSome := by simp [hs]
        simp only [hs', if_neg, if_false, Option.isSome_none]
        have happ := plookup_append_single acc d d (getCol rows i)
        rw [if_neg (by simp [hs]), if_pos rfl] at happ
        simp [happ, colIdx, List.mem_cons]
    · have hstep : plookup
          (if (plookup acc d).isSome then acc else acc ++ [(d, getCol rows i)]) c
          = plookup acc c := by
        by_cases hs : (plookup acc d).isSome
        · rw [if_pos hs]
        · rw [if_neg hs, plookup_append_single, if_neg hdc]
          cases hc : plookup acc c <;> simp [hc]
      rw [hstep]
      cases hc : plookup acc c with
      | some v => simp [hc]
      | none =>
        have hcd : ¬c = d := fun hh => hdc hh.symm
        by_cases hr : c ∈ rest
        · have hidx : i + colIdx c (d :: rest) = i + 1 + colIdx c rest := by
            simp only [colIdx, if_neg hdc]
            omega
          simp [hc, hr, hcd, List.mem_cons, hidx]
        · simp [hc, hr, hcd, List.mem_cons]

/-- Characterization of the table-merge fold: the first table (in read
order) whose header contains a column provides its value. -/
theorem plookup_mergeTables_fold (c : String) :
    ∀ (ts : List (List String × List (List ℚ)))
      (acc : List (String × List ℚ)),
    plookup (ts.foldl
        (fun acc t => if t.1.isEmpty then acc else bindColumns acc t.1 t.2)
        acc) c =
      if (plookup acc c).isSome then plookup acc c
      else (ts.find? (fun t => decide (c ∈ t.1))).map
        (fun t => getCol t.2 (colIdx c t.1)) := by
  intro ts
  induction ts with
  | nil =>
    intro acc
    cases hs : plookup acc c <;> simp [hs]
  | cons t rest ih =>
    intro acc
    simp only [List.foldl_cons]
    by_cases hemp : t.1.isEmpty
    · have hnotmem : c ∉ t.1 := by
        rcases t with ⟨h, r⟩
        simp only [List.isEmpty_iff] at hemp
        simp [hemp]
      rw [if_pos hemp, ih]
      simp [List.find?, hnotmem]
    · rw [if_neg hemp, ih]
      unfold bindColumns
      rw [plookup_bindColumnsAux]
      by_cases hs : (plookup acc c).isSome
      · by_cases hm : c ∈ t.1 <;> simp [hs, hm, List.find?]
      · by_cases hm : c ∈ t.1
        · simp [hs, hm, List.find?]
        · simp [hs, hm, List.find?]

/-- C2: parameter merging is first-writer-wins.  Over the four
bulk-parameter tables read in the fixed order
`master, heat, gradient, converge`, every column name is bound to the
column of the *first* table (in that order) whose header defines it;
tables later in the order never overwrite it. -/
theorem merge_first_writer_wins (m h g conv : List String × List (List ℚ))
    (col : String) :
    plookup (mergeAllTables [m, h, g, conv]) col =
      (([m, h, g, conv]).find? (fun t => decide (col ∈ t.1))).map
        (fun t => getCol t.2 (colIdx col t.1)) := by
  have hfold := plookup_mergeTables_fold col [m, h, g, conv] []
  simpa [mergeAllTables, plookup] using hfold

/-- When the four table reads succeed and yield the merged namespace,
`read_in_wind_parameters` succeeding means `computeGrid` produced its
result from that namespace. -/
theorem read_wind_parameters_computeGrid (fs : String → Option (List String))
    (merged : List (String × List ℚ)) (w : GridInfo)
    (hm : mergedParameters fs = .ok merged)
    (hw : read_in_wind_parameters fs = .ok w) :
    computeGrid merged = .ok w := by
  simp only [mergedParameters] at hm
  simp only [read_in_wind_parameters] at hw
  cases h1 : read_in_wind_table (fs "master") with
  | error e => simp [h1, Bind.bind, Except.bind] at hm
  | ok t1 =>
  cases h2 : read_in_wind_table (fs "heat") with
  | error e => simp [h1, h2, Bind.bind, Except.bind] at hm
  | ok t2 =>
  cases h3 : read_in_wind_table (fs "gradient") with
  | error e => simp [h1, h2, h3, Bind.bind, Except.bind] at hm
  | ok t3 =>
  cases h4 : read_in_wind_table (fs "converge") with
  | error e => simp [h1, h2, h3, h4, Bind.bind, Except.bind] at hm
  | ok t4 =>
  simp only [h1, h2, h3, h4, Bind.bind, Except.bind, pure, Except.pure,
    Except.ok.injEq] at hm hw
  by_cases hn :
      ([t1, t2, t3, t4].filter (fun t => !t.1.isEmpty)).length = 0
  · simp [hn] at hw
  · rw [if_neg hn] at hw
    rw [hm] at hw
    exact hw

/-- C3: after bulk-parameter merging, `n_x` is the maximum of column `i`
plus one, `n_z` is the maximum of column `j` plus one when a `z` or
`theta` column is bound and `1` otherwise, `n_cells = n_x * n_z`, and
the coordinate system is polar when both `r` and `theta` are bound,
spherical when `r` alone is bound, and cylindrical otherwise. -/
theorem grid_dimensions_and_coord_type (fs : String → Option (List String))
    (w : GridInfo) (merged : List (String × List ℚ)) (colI colJ : List ℚ)
    (maxI maxJ : ℚ)
    (hm : mergedParameters fs = .ok merged)
    (hw : read_in_wind_parameters fs = .ok w)
    (hI : plookup merged "i" = some colI) (hmI : npMax colI = some maxI)
    (hJ : plookup merged "j" = some colJ) (hmJ : npMax colJ = some maxJ) :
    w.n_x = pyInt (maxI + 1) ∧
    w.n_z = (if (plookup merged "z").isSome || (plookup merged "theta").isSome
             then pyInt (maxJ + 1) else 1) ∧
    w.n_cells = w.n_x * w.n_z ∧
    w.coord_type =
      (if (plookup merged "r").isSome && (plookup merged "theta").isSome
       then CoordSystem.POLAR
       else if (plookup merged "r").isSome then CoordSystem.SPHERICAL
       else CoordSystem.CYLINDRICAL) := by
  have hcg := read_wind_parameters_computeGrid fs merged w hm hw
  simp only [computeGrid, hI, hmI] at hcg
  by_cases hz :
      ((plookup merged "z").isSome || (plookup merged "theta").isSome) = true
  · rw [if_pos hz] at hcg
    simp only [hJ, hmJ] at hcg
    simp only [Except.bind] at hcg
    cases hmap : merged.mapM
        (fun cv => (npReshape cv.2 (pyInt (maxI + 1))
          (pyInt (maxJ + 1))).map (fun grid => (cv.1, grid))) with
    | none => rw [hmap] at hcg; exact absurd hcg (by simp)
    | some ps =>
      rw [hmap] at hcg
      have hwv := Except.ok.inj hcg
      rw [← hwv]
      refine ⟨rfl, ?_, rfl, rfl⟩
      rw [if_pos hz]
  · rw [if_neg hz] at hcg
    simp only [Except.bind] at hcg
    cases hmap : merged.mapM
        (fun cv => (npReshape cv.2 (pyInt (maxI + 1))
          (1 : ℤ)).map (fun grid => (cv.1, grid))) with
    | none => rw [hmap] at hcg; exact absurd hcg (by simp)
    | some ps =>
      rw [hmap] at hcg
      have hwv := Except.ok.inj hcg
      rw [← hwv]
      refine ⟨rfl, ?_, rfl, rfl⟩
      rw [if_neg hz]

/-- Concrete instance of `grid_dimensions_and_coord_type`: the synthetic
`master` table with header `i j r theta` and rows covering
`i ∈ {0,1}`, `j ∈ {0,1}` yields `n_x = 2`, `n_z = 2`, `n_cells = 4` and
a polar coordinate system. -/
theorem grid_dimensions_and_coord_type_witness :
    read_in_wind_parameters exampleFs = .ok exampleGrid ∧
    exampleGrid.n_x = 2 ∧ exampleGrid.n_z = 2 ∧ exampleGrid.n_cells = 4 ∧
    exampleGrid.coord_type = CoordSystem.POLAR := by
  have h := grid_dimensions_and_coord_type exampleFs exampleGrid exampleMerged
    [0, 0, 1, 1] [0, 1, 0, 1] 1 1
    (by with_unfolding_all decide) (by with_unfolding_all decide)
    (by with_unfolding_all decide) (by with_unfolding_all decide)
    (by with_unfolding_all decide) (by with_unfolding_all decide)
  refine ⟨by with_unfolding_all decide, ?_, ?_, ?_, ?_⟩
  · exact h.1.trans (by with_unfolding_all decide)
  · exact h.2.1.trans (by with_unfolding_all decide)
  · exact h.2.2.1.trans (by with_unfolding_all decide)
  · exact h.2.2.2.trans (by with_unfolding_all decide)

/-- When every `(element, ion_type)` table file is absent, the reading
loop of `read_in_wind_ions` leaves its state untouched. -/
theorem ionFold_all_absent (n_x n_z : ℤ) (fs : String → Option (List String)) :
    ∀ (L : List (String × String))
      (st : List (String × List (List ℚ)) × List String × ℕ),
    (∀ et ∈ L, fs (et.1 ++ "." ++ et.2) = none) →
    L.foldlM (ionStep n_x n_z fs) st = .ok st := by
  intro L
  induction L with
  | nil => intro st _; rfl
  | cons et rest ih =>
    intro st h
    have h1 : fs (et.1 ++ "." ++ et.2) = none := h et (List.mem_cons_self _ _)
    have hstep : ionStep n_x n_z fs st et = .ok st := by
      simp [ionStep, read_in_wind_table, h1]
    rw [List.foldlM_cons, hstep]
    exact ih st (fun et' h' => h et' (List.mem_cons_of_mem _ h'))

/-- C6: when zero ion tables (over every element and both
representations) can be read, `read_in_wind_ions` fails with the
missing-data `OSError`; when zero cell-spectrum files match the
discovery pattern, `read_in_wind_cell_spectra` succeeds with both
spectrum arrays marked absent. -/
theorem missing_ions_fatal_missing_spectra_optional
    (n_x n_z nx2 nz2 : ℤ) (fs : String → Option (List String))
    (elements : List String) (params : List (String × List (List ℚ)))
    (hfs : ∀ e ∈ elements,
      fs (e ++ "." ++ "frac") = none ∧ fs (e ++ "." ++ "den") = none) :
    read_in_wind_ions n_x n_z fs elements params = .error .osError ∧
    read_in_wind_cell_spectra nx2 nz2 [] = .ok ⟨none, none⟩ := by
  constructor
  · have hall : ∀ et ∈ elements.map (fun e => (e, "frac")) ++
        elements.map (fun e => (e, "den")),
        fs (et.1 ++ "." ++ et.2) = none := by
      intro et het
      rcases List.mem_append.mp het with hm | hm
      · obtain ⟨e, he, rfl⟩ := List.mem_map.mp hm
        exact (hfs e he).1
      · obtain ⟨e, he, rfl⟩ := List.mem_map.mp hm
        exact (hfs e he).2
    unfold read_in_wind_ions
    rw [ionFold_all_absent n_x n_z fs _ _ hall]
    rfl
  · rfl

/-- Concrete instance of `missing_ions_fatal_missing_spectra_optional`
on an empty file system with elements `H` and `He`. -/
theorem missing_ions_fatal_missing_spectra_optional_witness :
    read_in_wind_ions 2 2 (fun _ => none) ["H", "He"] [] =
      .error .osError ∧
    read_in_wind_cell_spectra 2 2 [] = .ok ⟨none, none⟩ :=
  missing_ions_fatal_missing_spectra_optional 2 2 2 2 (fun _ => none)
    ["H", "He"] [] (fun _ _ => ⟨rfl, rfl⟩)

/-- C7 (the code violates the claim): `_set_axes_coords` derives
`x_coords` from column `x` even for a *polar* grid, because the Python
conditional tests the truthy enum member `enum.CoordSystem.CYLINDRICAL`
instead of comparing it with `self.coord_type`.  On a polar grid with
`x = [2, 1]` and `r = [5, 3]` the code yields `x_coords = [1, 2]`,
whereas the claim demands the sorted distinct values of `r`, `[3, 5]`.
(The `z_coords` part behaves as claimed: `theta` is used here.) -/
theorem set_axes_coords_ignores_coord_type :
    set_axes_coords 2 CoordSystem.POLAR
      (fun s => if s = "x" then some [2, 1]
        else if s = "r" then some [5, 3]
        else if s = "theta" then some [0, 1] else none) =
      .ok ([1, 2], [0, 1]) ∧
    npUnique [5, 3] = [3, 5] ∧ ([1, 2] : List ℚ) ≠ [3, 5] := by
  refine ⟨?_, ?_, ?_⟩ <;> with_unfolding_all decide

/-- C9: for every smoothing function, grid size and sequence of
`smooth_cell_spectra` calls, a subsequent `unsmooth_cell_spectra`
restores the working cell-spectrum arrays to exactly the retained
originals from before any smoothing: smoothing only rewrites the
working copy, and unsmoothing copies the retained snapshot back. -/
theorem unsmooth_restores_original (smooth_array : List ℚ → ℕ → List ℚ)
    (n_x n_z : ℕ) (amounts : List ℕ) (s : ℕ → ℕ → List ℚ) :
    (unsmooth_cell_spectra
        (amounts.foldl
          (fun w amount => smooth_cell_spectra smooth_array n_x n_z amount w)
          (mkWindSpecState s))).spec = s := by
  have hpres : ∀ (l : List ℕ) (w : WindSpecState),
      (l.foldl (fun w amount => smooth_cell_spectra smooth_array n_x n_z amount w)
        w).original_spec = w.original_spec := by
    intro l
    induction l with
    | nil => intro w; rfl
    | cons a rest ih =>
      intro w
      rw [List.foldl_cons]
      exact ih _
  show (amounts.foldl _ (mkWindSpecState s)).original_spec = s
  rw [hpres]
  rfl

/-- C10: whenever the base-class assembly completes, the `Wind`
constructor raises `NotImplementedError`, because it unconditionally
calls `__calculate_grav_radius`, whose body is a bare raise. -/
theorem wind_init_always_raises {β : Type} (base_init : Except PyErr β)
    (h : ∃ b, base_init = .ok b) :
    wind_init base_init = .error .notImplementedError := by
  obtain ⟨b, rfl⟩ := h
  rfl

/-- Concrete instance of `wind_init_always_raises`. -/
theorem wind_init_always_raises_witness :
    wind_init (Except.ok (0 : ℚ)) = .error .notImplementedError :=
  wind_init_always_raises (Except.ok (0 : ℚ)) ⟨0, rfl⟩

/-- A successful 3-D assignment stores the new column at the target
cell. -/
theorem specSet3_get_eq (T T2 : List (List (List ℚ))) (a b : ℕ)
    (v : List ℚ) (h : specSet3 T a b v = some T2) :
    (T2.get? a).bind (fun r => r.get? b) = some v := by
  unfold specSet3 at h
  cases hrow : T.get? a with
  | none => rw [hrow] at h; simp at h
  | some row =>
    simp only [hrow] at h
    cases hcell : row.get? b with
    | none => simp only [hcell] at h; simp at h
    | some cell =>
      simp only [hcell] at h
      by_cases hl : v.length = cell.length
      · rw [if_pos hl] at h
        have hT2 := Option.some_inj.mp h
        rw [← hT2]
        have ha : a < T.length := by
          by_contra hge
          rw [List.get?_eq_none.mpr (Nat.le_of_not_lt hge)] at hrow
          exact Option.noConfusion hrow
        have hb : b < row.length := by
          by_contra hge
          rw [List.get?_eq_none.mpr (Nat.le_of_not_lt hge)] at hcell
          exact Option.noConfusion hcell
        rw [List.get?_set_eq_of_lt _ ha]
        show (row.set b v).get? b = some v
        exact List.get?_set_eq_of_lt _ hb
      · rw [if_neg hl] at h; simp at h

/-- A successful 3-D assignment leaves every other cell unchanged. -/
theorem specSet3_get_ne (T T2 : List (List (List ℚ))) (a' b' a b : ℕ)
    (v : List ℚ) (h : specSet3 T a' b' v = some T2)
    (hne : ¬(a' = a ∧ b' = b)) :
    (T2.get? a).bind (fun r => r.get? b) =
      (T.get? a).bind (fun r => r.get? b) := by
  unfold specSet3 at h
  cases hrow : T.get? a' with
  | none => rw [hrow] at h; simp at h
  | some row =>
    simp only [hrow] at h
    cases hcell : row.get? b' with
    | none => simp only [hcell] at h; simp at h
    | some cell =>
      simp only [hcell] at h
      by_cases hl : v.length = cell.length
      · rw [if_pos hl] at h
        have hT2 := Option.some_inj.mp h
        rw [← hT2]
        by_cases haa : a' = a
        · subst haa
          have hbb : b' ≠ b := fun hb => hne ⟨rfl, hb⟩
          have ha : a' < T.length := by
            by_contra hge
            rw [List.get?_eq_none.mpr (Nat.le_of_not_lt hge)] at hrow
            exact Option.noConfusion hrow
          rw [List.get?_set_eq_of_lt _ ha, hrow]
          show (row.set b' v).get? b = row.get? b
          exact List.get?_set_ne _ _ hbb
        · rw [List.get?_set_ne _ _ haa]
      · rw [if_neg hl] at h; simp at h

/-- A successful scatter pass leaves every cell untouched whose
coordinate pair is decoded from none of the processed labels. -/
theorem scatterSpec3_preserves (rows : List (List ℚ)) :
    ∀ (L : List String) (i0 : ℕ)
      (freqT fluxT freqT2 fluxT2 : List (List (List ℚ))),
    scatterSpec3 rows (freqT, fluxT) i0 L = .ok (freqT2, fluxT2) →
    ∀ a b : ℕ,
    (∀ j l', L.get? j = some l' → coordPair l' ≠ some (a, b)) →
    (fluxT2.get? a).bind (fun r => r.get? b) =
        (fluxT.get? a).bind (fun r => r.get? b) ∧
      (freqT2.get? a).bind (fun r => r.get? b) =
        (freqT.get? a).bind (fun r => r.get? b) := by
  intro L
  induction L with
  | nil =>
    intro i0 freqT fluxT freqT2 fluxT2 h a b _
    obtain ⟨h1, h2⟩ := Prod.mk.injEq .. ▸ Except.ok.inj h
    rw [h1, h2]
    exact ⟨rfl, rfl⟩
  | cons label rest ih =>
    intro i0 freqT fluxT freqT2 fluxT2 h a b hnone
    simp only [scatterSpec3] at h
    cases hcoords : labelCoords label with
    | none => simp only [hcoords] at h; exact Except.noConfusion h
    | some coords =>
      simp only [hcoords] at h
      cases hcolI : colAt rows (i0 + 1) with
      | none => simp only [hcolI] at h; exact Except.noConfusion h
      | some colI =>
        simp only [hcolI] at h
        cases hcol0 : colAt rows 0 with
        | none => simp only [hcol0] at h; exact Except.noConfusion h
        | some col0 =>
          simp only [hcol0] at h
          cases hc0 : coords.get? 0 with
          | none => simp only [hc0] at h; exact Except.noConfusion h
          | some a' =>
            simp only [hc0] at h
            cases hc1 : coords.get? 1 with
            | none => simp only [hc1] at h; exact Except.noConfusion h
            | some b' =>
              simp only [hc1] at h
              cases hset1 : specSet3 fluxT a' b' colI with
              | none => simp only [hset1] at h; exact Except.noConfusion h
              | some fluxM =>
                simp only [hset1] at h
                cases hset2 : specSet3 freqT a' b' col0 with
                | none => simp only [hset2] at h; exact Except.noConfusion h
                | some freqM =>
                  simp only [hset2] at h
                  have hcp : coordPair label = some (a', b') := by
                    unfold coordPair
                    rw [hcoords]
                    cases coords with
                    | nil => simp [List.get?] at hc0
                    | cons x xs =>
                      cases xs with
                      | nil => simp [List.get?] at hc1
                      | cons y ys =>
                        simp only [List.get?] at hc0 hc1
                        rw [Option.some_inj.mp hc0, Option.some_inj.mp hc1]
                  have hne : ¬(a' = a ∧ b' = b) := by
                    rintro ⟨rfl, rfl⟩
                    exact hnone 0 label rfl hcp
                  obtain ⟨hfl, hfr⟩ := ih (i0 + 1) freqM fluxM freqT2 fluxT2 h
                    a b (fun j l' hj => hnone (j + 1) l' hj)
                  exact ⟨hfl.trans (specSet3_get_ne _ _ _ _ _ _ _ hset1 hne),
                    hfr.trans (specSet3_get_ne _ _ _ _ _ _ _ hset2 hne)⟩

/-- In a successful scatter pass, the cell addressed by the label at
enumeration index `i` — provided no other label addresses the same
cell — ends up holding file column `i+1` (flux) and file column `0`
(frequency). -/
theorem scatterSpec3_writes (rows : List (List ℚ)) :
    ∀ (L : List String) (i0 : ℕ)
      (freqT fluxT freqT2 fluxT2 : List (List (List ℚ))),
    scatterSpec3 rows (freqT, fluxT) i0 L = .ok (freqT2, fluxT2) →
    ∀ (i : ℕ) (label : String) (a b : ℕ) (colI col0 : List ℚ),
    L.get? i = some label → coordPair label = some (a, b) →
    (∀ j l', L.get? j = some l' → j ≠ i → coordPair l' ≠ some (a, b)) →
    colAt rows (i0 + i + 1) = some colI → colAt rows 0 = some col0 →
    (fluxT2.get? a).bind (fun r => r.get? b) = some colI ∧
    (freqT2.get? a).bind (fun r => r.get? b) = some col0 := by
  intro L
  induction L with
  | nil =>
    intro i0 freqT fluxT freqT2 fluxT2 h i label a b colI col0 hlab
    exact absurd hlab (by simp)
  | cons label0 rest ih =>
    intro i0 freqT fluxT freqT2 fluxT2 h i label a b colI col0 hlab hcp hdist
      hcolI hcol0
    simp only [scatterSpec3] at h
    cases hcoords : labelCoords label0 with
    | none => simp only [hcoords] at h; exact Except.noConfusion h
    | some coords =>
      simp only [hcoords] at h
      cases hcolI0 : colAt rows (i0 + 1) with
      | none => simp only [hcolI0] at h; exact Except.noConfusion h
      | some colI0 =>
        simp only [hcolI0] at h
        cases hcol00 : colAt rows 0 with
        | none => simp only [hcol00] at h; exact Except.noConfusion h
        | some col00 =>
          simp only [hcol00] at h
          cases hc0 : coords.get? 0 with
          | none => simp only [hc0] at h; exact Except.noConfusion h
          | some a0 =>
            simp only [hc0] at h
            cases hc1 : coords.get? 1 with
            | none => simp only [hc1] at h; exact Except.noConfusion h
            | some b0 =>
              simp only [hc1] at h
              cases hset1 : specSet3 fluxT a0 b0 colI0 with
              | none => simp only [hset1] at h; exact Except.noConfusion h
              | some fluxM =>
                simp only [hset1] at h
                cases hset2 : specSet3 freqT a0 b0 col00 with
                | none => simp only [hset2] at h; exact Except.noConfusion h
                | some freqM =>
                  simp only [hset2] at h
                  have hcp0 : coordPair label0 = some (a0, b0) := by
                    unfold coordPair
                    rw [hcoords]
                    cases coords with
                    | nil => simp [List.get?] at hc0
                    | cons x xs =>
                      cases xs with
                      | nil => simp [List.get?] at hc1
                      | cons y ys =>
                        simp only [List.get?] at hc0 hc1
                        rw [Option.some_inj.mp hc0, Option.some_inj.mp hc1]
                  cases i with
                  | zero =>
                    have hl0 : label0 = label := Option.some_inj.mp hlab
                    subst hl0
                    have hab : (a0, b0) = (a, b) :=
                      Option.some_inj.mp (hcp0.symm.trans hcp)
                    rw [Prod.mk.injEq] at hab
                    obtain ⟨rfl, rfl⟩ := hab
                    have hcolI' : colAt rows (i0 + 1) = some colI := by
                      simpa using hcolI
                    have hci : colI0 = colI :=
                      Option.some_inj.mp (hcolI0.symm.trans hcolI')
                    have hc00 : col00 = col0 :=
                      Option.some_inj.mp (hcol00.symm.trans hcol0)
                    subst hci
                    subst hc00
                    have hrest : ∀ j l', rest.get? j = some l' →
                        coordPair l' ≠ some (a0, b0) := by
                      intro j l' hj
                      exact hdist (j + 1) l' hj (Nat.succ_ne_zero j)
                    obtain ⟨hfl, hfr⟩ := scatterSpec3_preserves rows rest
                      (i0 + 1) freqM fluxM freqT2 fluxT2 h a0 b0 hrest
                    constructor
                    · rw [hfl]
                      exact specSet3_get_eq _ _ _ _ _ hset1
                    · rw [hfr]
                      exact specSet3_get_eq _ _ _ _ _ hset2
                  | succ n =>
                    have hlab' : rest.get? n = some label := hlab
                    have hdist' : ∀ j l', rest.get? j = some l' → j ≠ n →
                        coordPair l' ≠ some (a, b) := by
                      intro j l' hj hne
                      exact hdist (j + 1) l' hj
                        (fun hh => hne (Nat.succ_injective hh))
                    have hcolI' : colAt rows ((i0 + 1) + n + 1) = some colI := by
                      have harith : (i0 + 1) + n + 1 = i0 + (n + 1) + 1 := by
                        omega
                      rw [harith]
                      exact hcolI
                    exact ih (i0 + 1) freqM fluxM freqT2 fluxT2 h n label a b
                      colI col0 hlab' hcp hdist' hcolI' hcol0

/-- C8: for a grid with `n_z > 1`, every header column of a
cell-spectrum file, whose label encodes the cell index pair as
underscore-joined integers, has its flux column scattered into
`spec_flux[a, b, :]` and the shared frequency axis (file column 0) into
`spec_freq[a, b, :]`, where `(a, b)` is the pair decoded from the
label (provided no other column addresses the same cell, which would
overwrite it). -/
theorem cell_spectra_scatter (n_x n_z : ℤ) (lines : List String)
    (st : SpecState) (tok : String) (fileHeader : List String)
    (body : List (List String)) (rows : List (List ℚ))
    (freqT fluxT : List (List (List ℚ))) (colI col0 : List ℚ)
    (i : ℕ) (label : String) (a b : ℕ)
    (hz : 1 < n_z)
    (hp : processLines lines = (tok :: fileHeader) :: body)
    (hrows : body.mapM (fun row => row.mapM parseFloat) = some rows)
    (hres : readSpecFile n_x n_z ⟨none, none⟩ lines = .ok st)
    (hlab : fileHeader.get? i = some label)
    (hcoord : coordPair label = some (a, b))
    (hdist : ∀ j l', fileHeader.get? j = some l' → j ≠ i →
      coordPair l' ≠ some (a, b))
    (hfreq : st.spec_freq = some (SpecArr.three freqT))
    (hflux : st.spec_flux = some (SpecArr.three fluxT))
    (hcolI : colAt rows (i + 1) = some colI)
    (hcol0 : colAt rows 0 = some col0) :
    (fluxT.get? a).bind (fun r => r.get? b) = some colI ∧
    (freqT.get? a).bind (fun r => r.get? b) = some col0 := by
  unfold readSpecFile at hres
  simp only [hp] at hres
  cases hdig : pyIsDigit tok with
  | true => rw [hdig] at hres; simp at hres
  | false =>
    rw [hdig] at hres
    simp only [Bool.false_eq_true, if_false] at hres
    simp only [hrows] at hres
    cases hrect : rectangular rows with
    | false => rw [hrect] at hres; simp at hres
    | true =>
      rw [hrect] at hres
      simp only [Bool.not_true, Bool.false_eq_true, if_false] at hres
      cases rows with
      | nil =>
        simp only [specScatterPhase] at hres
        exact Except.noConfusion hres
      | cons r0 rrest =>
        simp only [specScatterPhase] at hres
        cases hr0 : r0.isEmpty with
        | true => rw [hr0] at hres; simp at hres
        | false =>
          rw [hr0] at hres
          simp only [Bool.false_eq_true, if_false] at hres
          rw [if_pos hz] at hres
          cases hscat : scatterSpec3 (r0 :: rrest)
              (List.replicate n_x.toNat (List.replicate n_z.toNat
                (List.replicate (r0 :: rrest).length 0)),
               List.replicate n_x.toNat (List.replicate n_z.toNat
                (List.replicate (r0 :: rrest).length 0))) 0 fileHeader with
          | error e => rw [hscat] at hres; simp at hres
          | ok out =>
            obtain ⟨fT2, xT2⟩ := out
            rw [hscat] at hres
            simp only [Except.ok.injEq] at hres
            rw [← hres] at hfreq hflux
            simp only [Option.some_inj, SpecArr.three.injEq] at hfreq hflux
            have hcolI' : colAt (r0 :: rrest) (0 + i + 1) = some colI := by
              simpa using hcolI
            obtain ⟨hfl, hfr⟩ := scatterSpec3_writes (r0 :: rrest) fileHeader 0
              _ _ fT2 xT2 hscat i label a b colI col0 hlab hcoord hdist
              hcolI' hcol0
            constructor
            · rw [hflux] at hfl
              exact hfl
            · rw [hfreq] at hfr
              exact hfr

/-- Concrete instance of `cell_spectra_scatter`: a cell-spectrum file
whose header encodes cell `3_1`, read into a grid with `n_x = 4`,
`n_z = 2`, scatters its flux column `[5, 6]` into `spec_flux[3, 1, :]`
and the shared frequency axis `[1, 2]` into `spec_freq[3, 1, :]`. -/
theorem cell_spectra_scatter_witness :
    readSpecFile 4 2 ⟨none, none⟩ ["Freq. i3_1", "1.0 5.0", "2.0 6.0"] =
      .ok ⟨some (.three exampleFreqArr), some (.three exampleFluxArr)⟩ ∧
    (exampleFluxArr.get? 3).bind (fun r => r.get? 1) = some [5, 6] ∧
    (exampleFreqArr.get? 3).bind (fun r => r.get? 1) = some [1, 2] := by
  have h := cell_spectra_scatter 4 2 ["Freq. i3_1", "1.0 5.0", "2.0 6.0"]
    ⟨some (.three exampleFreqArr), some (.three exampleFluxArr)⟩
    "Freq." ["i3_1"] [["1.0", "5.0"], ["2.0", "6.0"]] [[1, 5], [2, 6]]
    exampleFreqArr exampleFluxArr [5, 6] [1, 2] 0 "i3_1" 3 1
    (by decide)
    (by with_unfolding_all decide)
    (by with_unfolding_all decide)
    (by with_unfolding_all decide)
    (by with_unfolding_all decide)
    (by with_unfolding_all decide)
    (by
      intro j l' hj hne
      cases j with
      | zero => exact absurd rfl hne
      | succ n => exact Option.noConfusion hj)
    rfl rfl
    (by with_unfolding_all decide)
    (by with_unfolding_all decide)
  exact ⟨by with_unfolding_all decide, h.1, h.2⟩

/-- `numpy.logspace` produces exactly `n` samples. -/
theorem logspace_length (a b : ℝ) (n : ℕ) : (logspace a b n).length = n := by
  simp only [logspace, List.length_map, List.length_range]

/-- Every frequency bin of a band with `0 < fmin ≤ fmax` lies in
`[fmin, fmax]`. -/
theorem bandBins_mem_bounds (fmin fmax : ℝ) (n : ℕ)
    (h0 : 0 < fmin) (h1 : fmin ≤ fmax) :
    ∀ f ∈ bandBins fmin fmax n, fmin ≤ f ∧ f ≤ fmax := by
  intro f hf
  simp only [bandBins, logspace, List.mem_map, List.mem_range] at hf
  obtain ⟨k, hk, rfl⟩ := hf
  have h0' : 0 < fmax := lt_of_lt_of_le h0 h1
  have hab : Real.logb 10 fmin ≤ Real.logb 10 fmax :=
    Real.logb_le_logb_of_le (by norm_num) h0 h1
  have hstep : 0 ≤ (Real.logb 10 fmax - Real.logb 10 fmin) * k / ((n : ℝ) - 1)
      ∧ (Real.logb 10 fmax - Real.logb 10 fmin) * k / ((n : ℝ) - 1) ≤
        Real.logb 10 fmax - Real.logb 10 fmin := by
    rcases Nat.lt_or_ge n 2 with hn | hn
    · have hn1 : n = 1 := by omega
      subst hn1
      have hk0 : k = 0 := Nat.lt_one_iff.mp hk
      subst hk0
      constructor
      · norm_num
      · norm_num
        linarith
    · have hpos : (0 : ℝ) < (n : ℝ) - 1 := by
        have h2 : (2 : ℝ) ≤ (n : ℝ) := by exact_mod_cast hn
        linarith
      constructor
      · apply div_nonneg _ (le_of_lt hpos)
        exact mul_nonneg (by linarith) (Nat.cast_nonneg k)
      · rw [div_le_iff hpos]
        have hk1 : (k : ℝ) ≤ (n : ℝ) - 1 := by
          have hkn : (k : ℝ) + 1 ≤ (n : ℝ) := by exact_mod_cast hk
          linarith
        exact mul_le_mul_of_nonneg_left hk1 (by linarith)
  constructor
  · have hmono := (Real.rpow_le_rpow_left_iff (by norm_num : (1 : ℝ) < 10)).mpr
      (by linarith [hstep.1] :
        Real.logb 10 fmin ≤ Real.logb 10 fmin +
          (Real.logb 10 fmax - Real.logb 10 fmin) * (k : ℝ) / ((n : ℝ) - 1))
    have heq : (10 : ℝ) ^ Real.logb 10 fmin = fmin :=
      Real.rpow_logb (by norm_num) (by norm_num) h0
    linarith [hmono, heq.le, heq.ge]
  · have hmono := (Real.rpow_le_rpow_left_iff (by norm_num : (1 : ℝ) < 10)).mpr
      (by linarith [hstep.2] :
        Real.logb 10 fmin +
          (Real.logb 10 fmax - Real.logb 10 fmin) * (k : ℝ) / ((n : ℝ) - 1) ≤
            Real.logb 10 fmax)
    have heq : (10 : ℝ) ^ Real.logb 10 fmax = fmax :=
      Real.rpow_logb (by norm_num) (by norm_num) h0'
    linarith [hmono, heq.le, heq.ge]

/-- Characterization of the per-cell band loop: starting from any
accumulated lists, a run over band indices whose rows and coefficient
columns are all present appends exactly the retained (non-empty) bands'
bins and fluxes, in band order. -/
theorem jnu_fold_spec (n_cells cell_index n_bins : ℕ)
    (model_array : List (List ℝ)) (table_header : List String)
    (fmin fmax mty plw pla ew et : ℕ → ℝ) :
    ∀ L : List ℕ,
    (∀ k ∈ L, ∃ row,
      model_array.get? (cell_index + k * n_cells) = some row ∧
      ¬table_header.length > row.length ∧
      rowVal table_header row "fmin" = some (fmin k) ∧
      rowVal table_header row "fmax" = some (fmax k) ∧
      rowVal table_header row "spec_mod_type" = some (mty k) ∧
      rowVal table_header row "pl_log_w" = some (plw k) ∧
      rowVal table_header row "pl_alpha" = some (pla k) ∧
      rowVal table_header row "exp_w" = some (ew k) ∧
      rowVal table_header row "exp_temp" = some (et k)) →
    ∀ cf cfl : List (List ℝ),
    L.foldlM
      (fun st band_index => create_banded_jnu_models n_cells cell_index
        band_index model_array table_header n_bins st.1 st.2) (cf, cfl) =
    some (cf ++ (L.filter (fun k => decide (fmin k < fmax k))).map
        (fun k => bandBins (fmin k) (fmax k) n_bins),
      cfl ++ (L.filter (fun k => decide (fmin k < fmax k))).map
        (fun k => bandFlux (mty k) (plw k) (pla k) (ew k) (et k)
          (bandBins (fmin k) (fmax k) n_bins))) := by
  intro L
  induction L with
  | nil => intro _ cf cfl; simp [List.foldlM]
  | cons k rest ih =>
    intro hL cf cfl
    obtain ⟨row, hget, hlen, hfmin, hfmax, hmty, hplw, hpla, hew, het⟩ :=
      hL k (List.mem_cons_self _ _)
    have hstep : create_banded_jnu_models n_cells cell_index k model_array
        table_header n_bins cf cfl =
        some (if fmin k < fmax k
          then (cf ++ [bandBins (fmin k) (fmax k) n_bins],
            cfl ++ [bandFlux (mty k) (plw k) (pla k) (ew k) (et k)
              (bandBins (fmin k) (fmax k) n_bins)])
          else (cf, cfl)) := by
      unfold create_banded_jnu_models
      simp only [hget]
      rw [if_neg hlen]
      simp only [hfmin, hfmax]
      by_cases hb : fmin k < fmax k
      · rw [if_pos hb, if_pos hb]
        simp only [hmty, Option.orElse]
        by_cases hm : mty k = 1
        · rw [if_pos hm]
          simp only [hplw, hpla]
          simp [bandFlux, hm]
        · rw [if_neg hm]
          simp only [hew, het]
          simp [bandFlux, hm]
      · rw [if_neg hb, if_neg hb]
    simp only [List.foldlM_cons]
    simp only [hstep]
    by_cases hb : fmin k < fmax k
    · rw [if_pos hb]
      show rest.foldlM
        (fun st band_index => create_banded_jnu_models n_cells cell_index
          band_index model_array table_header n_bins st.1 st.2)
        (cf ++ [bandBins (fmin k) (fmax k) n_bins],
         cfl ++ [bandFlux (mty k) (plw k) (pla k) (ew k) (et k)
           (bandBins (fmin k) (fmax k) n_bins)]) = _
      rw [ih (fun j hj => hL j (List.mem_cons_of_mem _ hj))]
      have hpk : decide (fmin k < fmax k) = true := decide_eq_true hb
      simp [List.filter_cons, hpk, List.append_assoc]
    · rw [if_neg hb]
      show rest.foldlM
        (fun st band_index => create_banded_jnu_models n_cells cell_index
          band_index model_array table_header n_bins st.1 st.2)
        (cf, cfl) = _
      rw [ih (fun j hj => hL j (List.mem_cons_of_mem _ hj))]
      have hpk : decide (fmin k < fmax k) = false := decide_eq_false hb
      simp [List.filter_cons, hpk]

/-- C4: for a cell of the `spec` table whose rows and named coefficient
columns are all present, the reconstructed per-cell model is the
concatenation (`numpy.hstack`), in ascending band-index order over
bands `0 .. n_bands - 1`, of the retained bands' sequences: a band with
`fmax ≤ fmin` contributes nothing (and a cell with no retained band
stores no model at all), and a retained band with model kind 1
(power law) contributes exactly `n_bins` log-spaced frequencies lying
in `[fmin, fmax]` with flux `10 ^ (pl_log_w + log10 freq * pl_alpha)`
at each frequency. -/
theorem banded_jnu_cell_model (n_cells n_bands n_bins cell_index : ℕ)
    (model_array : List (List ℝ)) (table_header : List String)
    (fmin fmax mty plw pla ew et : ℕ → ℝ)
    (hrow : ∀ k, k < n_bands → ∃ row,
      model_array.get? (cell_index + k * n_cells) = some row ∧
      ¬table_header.length > row.length ∧
      rowVal table_header row "fmin" = some (fmin k) ∧
      rowVal table_header row "fmax" = some (fmax k) ∧
      rowVal table_header row "spec_mod_type" = some (mty k) ∧
      rowVal table_header row "pl_log_w" = some (plw k) ∧
      rowVal table_header row "pl_alpha" = some (pla k) ∧
      rowVal table_header row "exp_w" = some (ew k) ∧
      rowVal table_header row "exp_temp" = some (et k)) :
    cell_jnu_model n_cells n_bands model_array table_header n_bins
        cell_index =
      some (if ((List.range n_bands).filter
            (fun k => decide (fmin k < fmax k))).isEmpty then none
        else some
          ((((List.range n_bands).filter
              (fun k => decide (fmin k < fmax k))).map
            (fun k => bandBins (fmin k) (fmax k) n_bins)).join,
          (((List.range n_bands).filter
              (fun k => decide (fmin k < fmax k))).map
            (fun k => bandFlux (mty k) (plw k) (pla k) (ew k) (et k)
              (bandBins (fmin k) (fmax k) n_bins))).join)) ∧
    (∀ k, fmin k < fmax k → 0 < fmin k → mty k = 1 →
      (bandBins (fmin k) (fmax k) n_bins).length = n_bins ∧
      (∀ f ∈ bandBins (fmin k) (fmax k) n_bins,
        fmin k ≤ f ∧ f ≤ fmax k) ∧
      bandFlux (mty k) (plw k) (pla k) (ew k) (et k)
          (bandBins (fmin k) (fmax k) n_bins) =
        (bandBins (fmin k) (fmax k) n_bins).map
          (fun f => (10 : ℝ) ^ (plw k + Real.logb 10 f * pla k))) := by
  constructor
  · unfold cell_jnu_model read_cell_jnu_model
    rw [jnu_fold_spec n_cells cell_index n_bins model_array table_header
      fmin fmax mty plw pla ew et (List.range n_bands)
      (fun k hk => hrow k (List.mem_range.mp hk)) [] []]
    simp only [List.nil_append, Option.map_some']
    congr 1
    cases hfil : (List.range n_bands).filter
        (fun k => decide (fmin k < fmax k)) with
    | nil => simp
    | cons a l => simp
  · intro k hlt h0 hm
    refine ⟨logspace_length _ _ _,
      bandBins_mem_bounds _ _ _ h0 (le_of_lt hlt), ?_⟩
    simp [bandFlux, powerLawFlux, hm]

/-- Concrete instance of `banded_jnu_cell_model` on the spec's
end-to-end example: one cell, one band, `spec_mod_type = 1`,
`fmin = 1e14`, `fmax = 1e15`, `pl_log_w = 2.0`, `pl_alpha = -1.0`
yields exactly 250 log-spaced frequency bins in `[1e14, 1e15]` with
flux `10 ^ (2 - log10 freq)` at each bin. -/
theorem banded_jnu_cell_model_witness :
    (1e14 : ℝ) < 1e15 ∧
    (bandBins (1e14 : ℝ) 1e15 250).length = 250 ∧
    (∀ f ∈ bandBins (1e14 : ℝ) 1e15 250, (1e14 : ℝ) ≤ f ∧ f ≤ 1e15) ∧
    bandFlux 1 2 (-1) 0 1 (bandBins (1e14 : ℝ) 1e15 250) =
      (bandBins (1e14 : ℝ) 1e15 250).map
        (fun f => (10 : ℝ) ^ (2 + Real.logb 10 f * (-1))) := by
  have h := banded_jnu_cell_model 1 1 250 0 [[1e14, 1e15, 1, 2, -1, 0, 1]]
    jnuHeader (fun _ => 1e14) (fun _ => 1e15) (fun _ => 1) (fun _ => 2)
    (fun _ => -1) (fun _ => 0) (fun _ => 1)
    (fun k hk => by
      have hk0 : k = 0 := by omega
      subst hk0
      exact ⟨[1e14, 1e15, 1, 2, -1, 0, 1], rfl, by decide,
        rfl, rfl, rfl, rfl, rfl, rfl, rfl⟩)
  have hb := h.2 0 (by norm_num) (by norm_num) rfl
  exact ⟨by norm_num, hb.1, hb.2.1, hb.2.2⟩
